import Mathlib

/-!
Verification development for the Boardroom-in-a-Box frontend
(flow orchestration & evaluation engine, consumer side).

The definitions below are shallow embeddings of the TypeScript source:
* `src/frontend/app/page.tsx` — the streaming/question consumers,
* `src/frontend/components/FlowSelector.tsx` — flow registry and score colors,
* `src/frontend/components/ConfidenceBadge.tsx` — confidence report interface,
* `src/frontend/components/HandoffDrawer.tsx` — handoff rendering,
* the KPI card and flow-timeline components.

JavaScript numbers appear only through their rendered strings or as exact
rationals; JS objects with dynamic fields are modelled as association lists.
Definitions whose doc comment starts with "Modelled from the spec:" embed
backend behaviour that is not part of the frontend sources.
-/

/-- Rendering of a JavaScript number: `locale` is the result of
`value.toLocaleString()` and `plain` is the template-literal rendering
of the same value. Both KPI formatters use these two renderings only. -/
structure JSNumber where
  locale : String
  plain : String
deriving DecidableEq

/-- KPI object as declared in the KPI card component (name, value, unit,
trend, optional window/definition/source/confidence). -/
structure KPICardKPI where
  name : String
  value : JSNumber
  unit : String
  trend : String
  window : Option String := none
  definition : Option String := none
  source_view : Option String := none
  confidence : Option String := none
deriving DecidableEq

/-- KPI object as declared in the flow-timeline component (trend optional). -/
structure TimelineKPI where
  name : String
  value : JSNumber
  unit : String
  trend : Option String := none
deriving DecidableEq

/-- The KPI card's `formatValue`: dollar units prefix a `$` to the
locale-formatted value, percent units append `%` to the raw value, any
other unit is appended after the locale-formatted value and a space. -/
def formatValue (kpi : KPICardKPI) : String :=
  if kpi.unit = "$" then "$" ++ kpi.value.locale
  else if kpi.unit = "%" then kpi.value.plain ++ "%"
  else kpi.value.locale ++ " " ++ kpi.unit

/-- The flow timeline's `formatKPIValue`: same branching on the unit as the
KPI card's `formatValue`. -/
def formatKPIValue (kpi : TimelineKPI) : String :=
  if kpi.unit = "$" then "$" ++ kpi.value.locale
  else if kpi.unit = "%" then kpi.value.plain ++ "%"
  else kpi.value.locale ++ " " ++ kpi.unit

/-- Direction of a rendered trend indicator. -/
inductive TrendIcon
  | up
  | down
  | neutral
deriving DecidableEq

/-- The KPI card's `getTrendIcon`: TrendingUp for trend `"UP"`, TrendingDown
for `"DOWN"`, the neutral Minus icon otherwise. -/
def kpiCardTrendIcon (trend : String) : TrendIcon :=
  if trend = "UP" then .up
  else if trend = "DOWN" then .down
  else .neutral

/-- The flow-timeline metric tile's trend indicator: its color class and its
arrow both test the lowercase strings `"up"` and `"down"`, anything else is
the neutral gray arrow. -/
def timelineTrendIcon (trend : String) : TrendIcon :=
  if trend = "up" then .up
  else if trend = "down" then .down
  else .neutral

/-- The arrow character the flow-timeline metric tile renders for a trend. -/
def timelineTrendArrow (trend : String) : String :=
  if trend = "up" then "↑"
  else if trend = "down" then "↓"
  else "→"

/-- One entry of the frontend flow registry. -/
structure FlowEntry where
  id : String
  name : String
  description : String
deriving DecidableEq

/-- The `FLOWS` catalog of `FlowSelector.tsx`, verbatim. -/
def FLOWS : List FlowEntry :=
  [ ⟨"kpi_review", "KPI Review", "CEO → CFO → CMO → CIO → Evaluator"⟩,
    ⟨"trade_off", "Trade-off", "[CFO || CMO] → Evaluator"⟩,
    ⟨"scenario", "Scenario", "CFO → CMO → Evaluator"⟩,
    ⟨"root_cause", "Root Cause", "CIO → CFO → CMO → Evaluator"⟩ ]

/-- Shape of a flow as the claim describes it: either a sequential chain of
stage nodes, or a parallel pair of stage nodes converging into a join node. -/
inductive FlowShape
  | seq (nodes : List String)
  | par (left right join : String)
deriving DecidableEq

/-- Rendering of a flow shape in the registry's description notation:
sequential chains are joined by arrows, the parallel pair is bracketed. -/
def renderShape : FlowShape → String
  | .seq nodes => String.intercalate " → " nodes
  | .par l r j => "[" ++ l ++ " || " ++ r ++ "] → " ++ j

/-- Number of stage nodes of a flow shape (parallel pair plus its join). -/
def shapeNodeCount : FlowShape → Nat
  | .seq nodes => nodes.length
  | .par _ _ _ => 3

/-- The four flow topologies exactly as claim C6 states them. -/
def claimedShapes : List FlowShape :=
  [ .seq ["CEO", "CFO", "CMO", "CIO", "Evaluator"],
    .par "CFO" "CMO" "Evaluator",
    .seq ["CFO", "CMO", "Evaluator"],
    .seq ["CIO", "CFO", "CMO", "Evaluator"] ]

/-- Modelled from the spec: the ConfidenceGate's banding of the 0–100
confidence score (the gate itself is backend code outside the frontend
sources): High for 80–100, Medium for 60–79, Low for 40–59, Critical
below 40. -/
def confidenceLevel (score : ℚ) : String :=
  if 80 ≤ score then "High"
  else if 60 ≤ score then "Medium"
  else if 40 ≤ score then "Low"
  else "Critical"

/-- Modelled from the spec: `can_proceed` of a ConfidenceReport is true only
for the High and Medium confidence levels. -/
def confidenceCanProceed (score : ℚ) : Bool :=
  confidenceLevel score = "High" ∨ confidenceLevel score = "Medium"

/-- C9: the KPI card's `formatValue` and the flow timeline's `formatKPIValue`
compute the same display string for every KPI that carries the same value and
unit: `$` plus the locale-formatted value for dollar units, the raw value
plus `%` for percent units, and otherwise the locale-formatted value, a
space, and the unit. -/
theorem format_value_formatters_agree (k1 : KPICardKPI) (k2 : TimelineKPI)
    (hv : k1.value = k2.value) (hu : k1.unit = k2.unit) :
    formatValue k1 = formatKPIValue k2 := by
  simp [formatValue, formatKPIValue, hv, hu]

/-- Witness for C9: the two formatters agree on a concrete KPI. -/
theorem format_value_formatters_agree_witness :
    formatValue ⟨"Revenue", ⟨"1,200", "1200"⟩, "$", "UP", none, none, none, none⟩
      = formatKPIValue ⟨"Revenue", ⟨"1,200", "1200"⟩, "$", some "up"⟩ :=
  format_value_formatters_agree _ _ rfl rfl

/-- C8 (code divergence): on the spec's trend values UP/DOWN/FLAT the KPI
card maps UP to the upward icon and DOWN to the downward icon, but the
flow-timeline metric tile compares against the lowercase strings, so all
three spec values — including UP and DOWN — render the neutral arrow. -/
theorem timeline_trend_case_mismatch :
    kpiCardTrendIcon "UP" = .up ∧ kpiCardTrendIcon "DOWN" = .down ∧
    kpiCardTrendIcon "FLAT" = .neutral ∧
    timelineTrendIcon "UP" = .neutral ∧ timelineTrendIcon "DOWN" = .neutral ∧
    timelineTrendIcon "FLAT" = .neutral ∧
    timelineTrendArrow "UP" = "→" ∧ timelineTrendArrow "DOWN" = "→" := by
  decide

/-- C6: the flow registry offers exactly four built-in specs whose
descriptions are precisely the four claimed topologies: the sequential
5-node chain CEO→CFO→CMO→CIO→Evaluator, the CFO/CMO parallel pair
converging into the Evaluator join, the 3-node chain CFO→CMO→Evaluator and
the 4-node chain CIO→CFO→CMO→Evaluator. -/
theorem flow_registry_four_specs :
    FLOWS.length = 4 ∧
    FLOWS.map FlowEntry.description = claimedShapes.map renderShape ∧
    claimedShapes.map shapeNodeCount = [5, 3, 3, 4] ∧
    FLOWS.map FlowEntry.id = ["kpi_review", "trade_off", "scenario", "root_cause"] := by
  refine ⟨rfl, ?_, rfl, rfl⟩
  simp [FLOWS, claimedShapes, renderShape]
  decide

/-- C5: the confidence level bands the score as High for 80 and above,
Medium for 60–79, Low for 40–59 and Critical below 40 — exact at the
boundaries (79 Medium, 80 High, 59 Low, 60 Medium, 39 Critical, 40 Low) —
and `can_proceed` is true exactly when the level is High or Medium. -/
theorem confidence_banding :
    confidenceLevel 79 = "Medium" ∧ confidenceLevel 80 = "High" ∧
    confidenceLevel 59 = "Low" ∧ confidenceLevel 60 = "Medium" ∧
    confidenceLevel 39 = "Critical" ∧ confidenceLevel 40 = "Low" ∧
    (∀ s : ℚ, (confidenceLevel s = "High" ↔ 80 ≤ s) ∧
      (confidenceLevel s = "Medium" ↔ 60 ≤ s ∧ s < 80) ∧
      (confidenceLevel s = "Low" ↔ 40 ≤ s ∧ s < 60) ∧
      (confidenceLevel s = "Critical" ↔ s < 40) ∧
      (confidenceCanProceed s = true ↔
        confidenceLevel s = "High" ∨ confidenceLevel s = "Medium")) := by
  refine ⟨by norm_num [confidenceLevel], by norm_num [confidenceLevel],
    by norm_num [confidenceLevel], by norm_num [confidenceLevel],
    by norm_num [confidenceLevel], by norm_num [confidenceLevel], ?_⟩
  intro s
  simp only [confidenceCanProceed, confidenceLevel]
  split_ifs with h80 h60 h40
  · exact ⟨iff_of_true rfl h80,
      iff_of_false (by decide) (fun h => absurd h.2 (not_lt.mpr h80)),
      iff_of_false (by decide) (fun h => absurd h.2 (not_lt.mpr (by linarith))),
      iff_of_false (by decide) (not_lt.mpr (by linarith)),
      by decide⟩
  · exact ⟨iff_of_false (by decide) h80,
      iff_of_true rfl ⟨h60, not_le.mp h80⟩,
      iff_of_false (by decide) (fun h => absurd h.2 (not_lt.mpr h60)),
      iff_of_false (by decide) (not_lt.mpr (by linarith)),
      by decide⟩
  · exact ⟨iff_of_false (by decide) h80,
      iff_of_false (by decide) (fun h => absurd h.1 h60),
      iff_of_true rfl ⟨h40, not_le.mp h60⟩,
      iff_of_false (by decide) (not_lt.mpr h40),
      by decide⟩
  · exact ⟨iff_of_false (by decide) h80,
      iff_of_false (by decide) (fun h => absurd h.1 h60),
      iff_of_false (by decide) (fun h => absurd h.1 h40),
      iff_of_true rfl (not_le.mp h40),
      by decide⟩

/-- Evaluation dimension score as declared in the EvaluatorScore component. -/
structure DimensionScore where
  dimension : String
  score : ℚ
  weight : ℚ
  weighted_score : ℚ
  factors : List String
  warnings : List String
deriving DecidableEq

/-- Recommended action attached to an evaluation. -/
structure Decision where
  action : String
  impact : String
  priority : String
deriving DecidableEq

/-- Conflict entry attached to an evaluation. -/
structure ConflictObj where
  issue : String
  severity : String
  between : List String
deriving DecidableEq

/-- Evaluation object as the consumer stores it. -/
structure EvaluationObj where
  overall_score : ℚ
  risk_level : String
  confidence : String
  has_blocking_conflicts : Bool
  dimension_scores : List DimensionScore
  decisions : List Decision
  conflicts : List ConflictObj
deriving DecidableEq

/-- JavaScript `a || b` on an optional string: the default is used when the
value is absent or is the empty string (both falsy). -/
def jsOrString (v : Option String) (dflt : String) : String :=
  match v with
  | some s => if s = "" then dflt else s
  | none => dflt

/-- JavaScript `a || b` on an optional number: the default is used when the
value is absent or is zero (both falsy). -/
def jsOrNum (v : Option ℚ) (dflt : ℚ) : ℚ :=
  match v with
  | some q => if q = 0 then dflt else q
  | none => dflt

/-- The fallback Evaluation `runFlowFromQuestion` builds when the chat
response carries an `overall_score` but no full `evaluation` object:
`risk_level` comes from the response's confidence level (High gives Low
risk, Low gives High risk, anything else Medium), `confidence` defaults to
Medium, blocking conflicts are false, and four dimension scores named
Strategic Alignment, Financial Impact, Market Analysis and Data Quality are
derived from the overall score with weights 0.3, 0.25, 0.25 and 0.2. -/
def mkFallbackEvaluation (score : ℚ) (confidence_level : Option String)
    (recommendations risks : List String) : EvaluationObj where
  overall_score := score
  risk_level :=
    if confidence_level = some "High" then "Low"
    else if confidence_level = some "Low" then "High"
    else "Medium"
  confidence := jsOrString confidence_level "Medium"
  has_blocking_conflicts := false
  dimension_scores :=
    [ ⟨"Strategic Alignment", score, 3/10, score * (3/10), [], []⟩,
      ⟨"Financial Impact", score * (9/10), 1/4, score * (9/10) * (1/4), [], []⟩,
      ⟨"Market Analysis", score * (19/20), 1/4, score * (19/20) * (1/4), [], []⟩,
      ⟨"Data Quality", score * (17/20), 1/5, score * (17/20) * (1/5), [], []⟩ ]
  decisions :=
    recommendations.enum.map fun p =>
      ⟨p.2, "See details", if p.1 = 0 then "High" else "Medium"⟩
  conflicts := risks.map fun r => ⟨r, "Medium", ["Analysis"]⟩

/-- Modelled from the spec: the Evaluator's risk banding of the overall
score (the Evaluator itself is backend code outside the frontend sources):
at least 8.0 is Low, 6.0–7.9 Medium, 4.0–5.9 High, below 4.0 Critical. -/
def specRiskBand (score : ℚ) : String :=
  if 8 ≤ score then "Low"
  else if 6 ≤ score then "Medium"
  else if 4 ≤ score then "High"
  else "Critical"

/-- The EvaluatorScore component's `getScoreColor`: green at 8 and above,
yellow at 6, orange at 4, red below. -/
def getScoreColor (score : ℚ) : String :=
  if 8 ≤ score then "text-green-600"
  else if 6 ≤ score then "text-yellow-600"
  else if 4 ≤ score then "text-orange-600"
  else "text-red-600"

/-- C2 counterexample: two fallback Evaluations with the same overall score
2.0 but different confidence levels get different risk levels (Low and
High respectively), so risk_level is not a function of overall_score; and
neither matches the claimed banding, which puts a 2.0 score at Critical. -/
theorem fallback_risk_level_not_banded :
    (mkFallbackEvaluation 2 (some "High") [] []).overall_score
      = (mkFallbackEvaluation 2 (some "Low") [] []).overall_score ∧
    (mkFallbackEvaluation 2 (some "High") [] []).risk_level = "Low" ∧
    (mkFallbackEvaluation 2 (some "Low") [] []).risk_level = "High" ∧
    specRiskBand (mkFallbackEvaluation 2 (some "High") [] []).overall_score
      = "Critical" := by
  refine ⟨rfl, rfl, rfl, ?_⟩
  norm_num [mkFallbackEvaluation, specRiskBand]

/-- C2 (amended): Evaluations reconstructed on the question path derive
risk_level from the response's confidence level alone — High confidence
gives Low risk, Low gives High, anything else Medium — independent of the
overall score; the score-color banding of the display does follow the
8.0/6.0/4.0 bands of the spec's risk banding. -/
theorem fallback_risk_level_from_confidence (s s' : ℚ) (cl : Option String)
    (recs recs' risks risks' : List String) :
    (mkFallbackEvaluation s cl recs risks).risk_level
      = (mkFallbackEvaluation s' cl recs' risks').risk_level ∧
    (mkFallbackEvaluation s cl recs risks).risk_level
      = (if cl = some "High" then "Low"
         else if cl = some "Low" then "High" else "Medium") ∧
    (∀ q : ℚ, (getScoreColor q = "text-green-600" ↔ specRiskBand q = "Low") ∧
      (getScoreColor q = "text-yellow-600" ↔ specRiskBand q = "Medium") ∧
      (getScoreColor q = "text-orange-600" ↔ specRiskBand q = "High") ∧
      (getScoreColor q = "text-red-600" ↔ specRiskBand q = "Critical")) := by
  refine ⟨rfl, rfl, ?_⟩
  intro q
  unfold getScoreColor specRiskBand
  split_ifs <;> simp_all

/-- C3 counterexample: the fallback Evaluation built on the question path
carries four dimension scores, not five, and none of them is named after
the five spec dimensions. -/
theorem fallback_dimension_count_is_four :
    (mkFallbackEvaluation 5 (some "High") [] []).dimension_scores.length = 4 ∧
    (mkFallbackEvaluation 5 (some "High") [] []).dimension_scores.length ≠ 5 ∧
    ((mkFallbackEvaluation 5 (some "High") [] []).dimension_scores.map
        DimensionScore.dimension)
      = ["Strategic Alignment", "Financial Impact", "Market Analysis",
         "Data Quality"] := by
  refine ⟨rfl, by decide, rfl⟩

/-- C3 (amended): the fallback Evaluation built on the question path has
exactly four DimensionScores — Strategic Alignment (weight 0.30), Financial
Impact (0.25), Market Analysis (0.25) and Data Quality (0.20) — whose
weights sum to 1.0 and each of which satisfies
weighted_score = score × weight. -/
theorem fallback_dimension_scores_shape (s : ℚ) (cl : Option String)
    (recs risks : List String) :
    (mkFallbackEvaluation s cl recs risks).dimension_scores.length = 4 ∧
    ((mkFallbackEvaluation s cl recs risks).dimension_scores.map
        DimensionScore.weight) = [3/10, 1/4, 1/4, 1/5] ∧
    (((mkFallbackEvaluation s cl recs risks).dimension_scores.map
        DimensionScore.weight).sum) = 1 ∧
    (∀ d ∈ (mkFallbackEvaluation s cl recs risks).dimension_scores,
      d.weighted_score = d.score * d.weight) := by
  refine ⟨rfl, rfl, by norm_num [mkFallbackEvaluation], ?_⟩
  intro d hd
  simp only [mkFallbackEvaluation, List.mem_cons, List.not_mem_nil, or_false]
    at hd
  rcases hd with h | h | h | h <;> subst h <;> rfl

/-- Confidence object as the consumer stores it. The ConfidenceBadge
interface declares level, score, can_proceed, summary and blocking_issues;
optional fields record that a JS object literal may omit them. -/
structure ConfidenceObj where
  level : String
  score : ℚ
  can_proceed : Option Bool := none
  summary : Option String := none
  blocking_issues : Option (List String) := none
deriving DecidableEq

/-- The confidence object `runFlowFromQuestion` stores: only a level
(the response's confidence_level, defaulting to Medium) and a score (the
response's confidence, defaulting to 0.8); the other interface fields are
not set. -/
def mkQuestionConfidence (confidence_level : Option String)
    (confidence : Option ℚ) : ConfidenceObj where
  level := jsOrString confidence_level "Medium"
  score := jsOrNum confidence (4/5)

/-- Modelled from the spec: the full ConfidenceReport the backend emits on
the confidence event — level and can_proceed banded from the 0–100 score,
a summary text and a blocking-issues list. -/
def mkStreamConfidence (score : ℚ) (summary : String)
    (blocking_issues : List String) : ConfidenceObj where
  level := confidenceLevel score
  score := score
  can_proceed := some (confidenceCanProceed score)
  summary := some summary
  blocking_issues := some blocking_issues

/-- C7 counterexample: the confidence object built on the question path
has no can_proceed boolean, no summary text and no blocking-issues list. -/
theorem question_confidence_missing_fields :
    (mkQuestionConfidence (some "High") (some (9/10))).can_proceed = none ∧
    (mkQuestionConfidence (some "High") (some (9/10))).summary = none ∧
    (mkQuestionConfidence (some "High") (some (9/10))).blocking_issues = none := by
  exact ⟨rfl, rfl, rfl⟩

/-- C7 (amended): confidence reports delivered on the streaming confidence
event carry all five interface fields with the level drawn from
High/Medium/Low/Critical, but the report the consumer constructs on the
question path carries only a level (the response's confidence level,
defaulting to Medium) and a score (the response's confidence, defaulting
to 0.8); its can_proceed, summary and blocking_issues are absent. -/
theorem question_confidence_shape (cl : Option String) (conf : Option ℚ)
    (s : ℚ) (summary : String) (issues : List String) :
    ((mkStreamConfidence s summary issues).can_proceed.isSome ∧
      (mkStreamConfidence s summary issues).summary.isSome ∧
      (mkStreamConfidence s summary issues).blocking_issues.isSome ∧
      (mkStreamConfidence s summary issues).level ∈
        ["High", "Medium", "Low", "Critical"]) ∧
    (mkQuestionConfidence cl conf).can_proceed = none ∧
    (mkQuestionConfidence cl conf).summary = none ∧
    (mkQuestionConfidence cl conf).blocking_issues = none ∧
    (mkQuestionConfidence cl conf).level = jsOrString cl "Medium" ∧
    (mkQuestionConfidence cl conf).score = jsOrNum conf (4/5) := by
  refine ⟨⟨rfl, rfl, rfl, ?_⟩, rfl, rfl, rfl, rfl, rfl⟩
  simp only [mkStreamConfidence, confidenceLevel]
  split_ifs <;> simp

/-- Handoff records are JS objects read through dynamic field access; they
are modelled as association lists from field name to string value (list- or
object-valued payload fields are irrelevant to the claims and are carried
as opaque strings). -/
def HandoffRec : Type := List (String × String)

/-- Dynamic field read on a handoff record: the value of the first binding
of the field, or none when the object has no such field (JS undefined). -/
def getField (h : HandoffRec) (field : String) : Option String :=
  (h.find? fun p => p.1 = field).map Prod.snd

/-- Modelled from the spec: the handoff event payload carries its source and
destination stage names in fields named from and to, together with reason,
flags, signals, kpi_summary, focus_areas, evidence and timestamp. -/
def mkHandoffPayload (hfrom hto reason flags signals kpi_summary focus_areas
    evidence timestamp : String) : HandoffRec :=
  [("from", hfrom), ("to", hto), ("reason", reason), ("flags", flags),
   ("signals", signals), ("kpi_summary", kpi_summary),
   ("focus_areas", focus_areas), ("evidence", evidence),
   ("timestamp", timestamp)]

/-- The flow timeline's `getHandoffForAgent` (also the `onNodeClick` lookup
in the page component): the first handoff whose `from` field equals the
agent name. -/
def getHandoffForAgent (handoffs : List HandoffRec) (agentName : String) :
    Option HandoffRec :=
  handoffs.find? fun h => getField h "from" == some agentName

/-- Destination stage as the flow timeline's handoff message renders it:
the record's `to` field. -/
def timelineHandoffTo (h : HandoffRec) : Option String :=
  getField h "to"

/-- Source stage label as the HandoffDrawer renders it: the record's
`handoff_from` field. -/
def drawerFromLabel (h : HandoffRec) : Option String :=
  getField h "handoff_from"

/-- Destination stage label as the HandoffDrawer renders it: the record's
`handoff_to` field. -/
def drawerToLabel (h : HandoffRec) : Option String :=
  getField h "handoff_to"

/-- C4 (code divergence): a handoff payload carrying its stages in the
contract's `from` and `to` fields is found by `getHandoffForAgent` via
`from` and its destination is read via `to`, but the HandoffDrawer renders
the fields `handoff_from` and `handoff_to`, which the payload does not
carry, so both drawer labels are undefined. -/
theorem handoff_drawer_field_mismatch :
    getHandoffForAgent
        [mkHandoffPayload "CFO" "CMO" "r" "f" "s" "k" "fa" "e" "t"] "CFO"
      = some (mkHandoffPayload "CFO" "CMO" "r" "f" "s" "k" "fa" "e" "t") ∧
    getField (mkHandoffPayload "CFO" "CMO" "r" "f" "s" "k" "fa" "e" "t") "from"
      = some "CFO" ∧
    timelineHandoffTo (mkHandoffPayload "CFO" "CMO" "r" "f" "s" "k" "fa" "e" "t")
      = some "CMO" ∧
    drawerFromLabel (mkHandoffPayload "CFO" "CMO" "r" "f" "s" "k" "fa" "e" "t")
      = none ∧
    drawerToLabel (mkHandoffPayload "CFO" "CMO" "r" "f" "s" "k" "fa" "e" "t")
      = none := by
  exact ⟨rfl, rfl, rfl, rfl, rfl⟩

/-- Session record the consumer builds at session_complete. -/
structure SessionRec where
  session_id : String
  ended_at : Option String := none
  constraints_status : List (String × String) := []
deriving DecidableEq

/-- Decision summary stored on the question path. -/
structure DecisionSummary where
  summary : String
  key_findings : List String
  recommendations : List String
  risks : List String
  confidence_level : Option String
  next_steps : List String
deriving DecidableEq

/-- Per-agent output stored from agent_complete events. -/
structure AgentOutput where
  kpis : List KPICardKPI
  insights : List String
deriving DecidableEq

/-- Node status after the consumer's rebuild. -/
inductive NodeStatus
  | pending
  | active
  | completed
  | failed
deriving DecidableEq

/-- Flow node as the page component stores it: agent name (absent when the
node object was created by spreading an undefined entry), status, and the
optional start and end timestamps. -/
structure FlowNode where
  agent : Option String
  status : NodeStatus
  started_at : Option String := none
  ended_at : Option String := none
deriving DecidableEq

/-- Node map of the session: a JS Record from agent name to node, modelled
as an association list with insert-or-replace update. -/
def NodeMap : Type := List (String × FlowNode)

/-- Full React state of the page component, with the pieces the claims are
about. Fields that never change during a run (selected flow/mode and the
typed question) are carried so that resets can be shown to leave them as
they are. -/
structure ConsumerState where
  loading : Bool
  session : Option SessionRec
  nodes : NodeMap
  currentNode : Option String
  confidence : Option ConfidenceObj
  agentOutputs : List (String × AgentOutput)
  handoffs : List HandoffRec
  evaluation : Option EvaluationObj
  constraintsStatus : List (String × String)
  streamStatus : String
  question : String
  flowReasoning : String
  decisionSummary : Option DecisionSummary
  selectedFlow : String
  selectedMode : String

/-- Action on the event-stream connection. -/
inductive ConnAction
  | closeConn (id : Nat)
  | openNew
deriving DecidableEq

/-- The reset-and-connect phase of `runFlowWithStreaming`: every piece of
realtime session state is reset, then any existing EventSource is closed
and a new one is opened. The optional `conn` is the identity of the current
`eventSourceRef` connection, if any. -/
def runStreamingReset (s : ConsumerState) (conn : Option Nat) :
    ConsumerState × List ConnAction :=
  ({ s with
      loading := true
      session := none
      nodes := []
      currentNode := none
      confidence := none
      agentOutputs := []
      handoffs := []
      evaluation := none
      constraintsStatus := []
      streamStatus := "Starting..." },
   (match conn with
    | some c => [ConnAction.closeConn c]
    | none => []) ++ [ConnAction.openNew])

/-- JavaScript's `String.prototype.trim`: whitespace stripped from both
ends, written over the character list so that it evaluates by reduction. -/
def jsTrim (s : String) : String :=
  ⟨((s.data.dropWhile Char.isWhitespace).reverse.dropWhile
      Char.isWhitespace).reverse⟩

/-- The reset phase of `runFlowFromQuestion`: a no-op when the trimmed
question is empty (the handler returns early), otherwise every piece of
realtime session state plus the decision summary and flow reasoning is
reset. -/
def runQuestionReset (s : ConsumerState) : ConsumerState :=
  if jsTrim s.question = "" then s
  else
    { s with
        loading := true
        session := none
        nodes := []
        currentNode := none
        confidence := none
        agentOutputs := []
        handoffs := []
        evaluation := none
        constraintsStatus := []
        decisionSummary := none
        flowReasoning := ""
        streamStatus := "Analyzing question..." }

/-- C10: starting a new run by either path first clears every piece of the
previous session's state — node map, current node, confidence, agent
outputs, handoffs, evaluation, constraint status and session record (the
question path additionally clears the decision summary and the flow
reasoning) — and the streaming path closes the existing event-stream
connection before opening the new one. Since each cleared field equals a
constant, nothing of the prior session's state survives into the new run. -/
theorem run_reset_clears_state (s : ConsumerState) (conn : Option Nat)
    (c : Nat) (hq : ¬ jsTrim s.question = "") :
    (runStreamingReset s conn).1.nodes = [] ∧
    (runStreamingReset s conn).1.currentNode = none ∧
    (runStreamingReset s conn).1.confidence = none ∧
    (runStreamingReset s conn).1.agentOutputs = [] ∧
    (runStreamingReset s conn).1.handoffs = [] ∧
    (runStreamingReset s conn).1.evaluation = none ∧
    (runStreamingReset s conn).1.constraintsStatus = [] ∧
    (runStreamingReset s conn).1.session = none ∧
    (runStreamingReset s (some c)).2 = [ConnAction.closeConn c, ConnAction.openNew] ∧
    (runStreamingReset s none).2 = [ConnAction.openNew] ∧
    (runQuestionReset s).nodes = [] ∧
    (runQuestionReset s).currentNode = none ∧
    (runQuestionReset s).confidence = none ∧
    (runQuestionReset s).agentOutputs = [] ∧
    (runQuestionReset s).handoffs = [] ∧
    (runQuestionReset s).evaluation = none ∧
    (runQuestionReset s).constraintsStatus = [] ∧
    (runQuestionReset s).session = none ∧
    (runQuestionReset s).decisionSummary = none ∧
    (runQuestionReset s).flowReasoning = "" := by
  simp [runStreamingReset, runQuestionReset, hq]

/-- Witness for C10: the reset applied to a concrete non-empty prior state
with a live connection. -/
theorem run_reset_clears_state_witness :
    (runStreamingReset
        ⟨false, some ⟨"s1", some "t", [("margin", "PASS")]⟩,
          [("CEO", ⟨some "CEO", .completed, some "a", some "b"⟩)],
          some "CEO", some ⟨"High", 90, some true, some "ok", some []⟩,
          [("CEO", ⟨[], ["i"]⟩)], [[("from", "CEO")]],
          some (mkFallbackEvaluation 5 (some "High") [] []),
          [("margin", "PASS")], "Complete", "how are sales?", "reason",
          some ⟨"sum", [], [], [], some "High", []⟩, "kpi_review", "summary"⟩
        (some 7)).1.nodes = [] := by
  have h := run_reset_clears_state
    ⟨false, some ⟨"s1", some "t", [("margin", "PASS")]⟩,
      [("CEO", ⟨some "CEO", .completed, some "a", some "b"⟩)],
      some "CEO", some ⟨"High", 90, some true, some "ok", some []⟩,
      [("CEO", ⟨[], ["i"]⟩)], [[("from", "CEO")]],
      some (mkFallbackEvaluation 5 (some "High") [] []),
      [("margin", "PASS")], "Complete", "how are sales?", "reason",
      some ⟨"sum", [], [], [], some "High", []⟩, "kpi_review", "summary"⟩
    (some 7) 7 (by decide)
  exact h.1

/-- Lifecycle events of the stream, as the page component listens to them.
The confidence, handoff, evaluation and session_complete listeners never
touch the node map; they are collapsed into the `passive` constructor. -/
inductive Event
  | session_start (nodes : List String)
  | agent_start (agent started_at : String)
  | agent_complete (agent ended_at : String)
  | agent_error (agent error : String)
  | passive
deriving DecidableEq

/-- Record lookup on the node map: the first binding of the name. -/
def lookupNode : List (String × FlowNode) → String → Option FlowNode
  | [], _ => none
  | (k, v) :: rest, n => if k = n then some v else lookupNode rest n

/-- Record update on the node map: replace the binding of the name, or
append one (the JS spread `\x7b...prev, [agent]: node\x7d`). -/
def setNode : List (String × FlowNode) → String → FlowNode →
    List (String × FlowNode)
  | [], n, v => [(n, v)]
  | (k, w) :: rest, n, v =>
      if k = n then (k, v) :: rest else (k, w) :: setNode rest n v

/-- The session_start handler's initial node map: one pending node per name
of the flow's node list, keyed and labelled by the name. -/
def initNodes (names : List String) : List (String × FlowNode) :=
  names.foldl (fun m nm => setNode m nm ⟨some nm, .pending, none, none⟩) []

/-- One step of the consumer's event handling, restricted to the node map:
session_start replaces the map by the initial pending map; agent_start
marks the node active and records started_at; agent_complete marks it
completed and records ended_at; agent_error marks it failed; all other
events leave the node map unchanged. A spread of an undefined entry yields
a node without an agent label. -/
def applyEvent (m : List (String × FlowNode)) : Event → List (String × FlowNode)
  | .session_start ns => initNodes ns
  | .agent_start a t =>
      match lookupNode m a with
      | some prev => setNode m a { prev with status := .active, started_at := some t }
      | none => setNode m a ⟨none, .active, some t, none⟩
  | .agent_complete a t =>
      match lookupNode m a with
      | some prev => setNode m a { prev with status := .completed, ended_at := some t }
      | none => setNode m a ⟨none, .completed, none, some t⟩
  | .agent_error a _ =>
      match lookupNode m a with
      | some prev => setNode m a { prev with status := .failed }
      | none => setNode m a ⟨none, .failed, none, none⟩
  | .passive => m

/-- The consumer's rebuilt node map after an ordered event sequence. -/
def rebuild (evs : List Event) : List (String × FlowNode) :=
  evs.foldl applyEvent []

theorem lookup_setNode_self (m : List (String × FlowNode)) (n : String)
    (v : FlowNode) : lookupNode (setNode m n v) n = some v := by
  induction m with
  | nil => simp [setNode, lookupNode]
  | cons hd tl ih =>
    obtain ⟨k, w⟩ := hd
    by_cases hk : k = n
    · simp [setNode, hk, lookupNode]
    · simp [setNode, hk, lookupNode, ih]

theorem lookup_setNode_ne (m : List (String × FlowNode)) (n k : String)
    (v : FlowNode) (h : k ≠ n) : lookupNode (setNode m n v) k = lookupNode m k := by
  induction m with
  | nil => simp [setNode, lookupNode, Ne.symm h]
  | cons hd tl ih =>
    obtain ⟨k', w⟩ := hd
    by_cases hk : k' = n
    · subst hk
      simp [setNode, lookupNode, Ne.symm h]
    · simp [setNode, hk, lookupNode, ih]

theorem lookup_initNodes_aux (names : List String)
    (m : List (String × FlowNode)) (n : String) :
    lookupNode
        (names.foldl (fun acc nm => setNode acc nm ⟨some nm, .pending, none, none⟩) m)
        n
      = if n ∈ names then some ⟨some n, .pending, none, none⟩
        else lookupNode m n := by
  induction names generalizing m with
  | nil => simp
  | cons nm rest ih =>
    simp only [List.foldl_cons, ih, List.mem_cons]
    by_cases hr : n ∈ rest
    · simp [hr]
    · by_cases hnm : n = nm
      · subst hnm
        simp [hr, lookup_setNode_self]
      · simp [hr, hnm, lookup_setNode_ne _ _ _ _ hnm]

theorem lookup_initNodes (names : List String) (n : String) :
    lookupNode (initNodes names) n
      = if n ∈ names then some ⟨some n, .pending, none, none⟩ else none := by
  simpa [lookupNode] using lookup_initNodes_aux names [] n

/-- Per-node projection of an event: the lifecycle step it applies to that
node, with its payload. -/
inductive Tag
  | start (started_at : String)
  | complete (ended_at : String)
  | error (message : String)
deriving DecidableEq

/-- The lifecycle step an event applies to the node named `n`, if any. -/
def tagOf (n : String) : Event → Option Tag
  | .agent_start a t => if a = n then some (Tag.start t) else none
  | .agent_complete a t => if a = n then some (Tag.complete t) else none
  | .agent_error a e => if a = n then some (Tag.error e) else none
  | _ => none

/-- The agent an event addresses, if any. -/
def agentOf : Event → Option String
  | .agent_start a _ => some a
  | .agent_complete a _ => some a
  | .agent_error a _ => some a
  | _ => none

/-- All agents addressed by some event of the sequence. -/
def eventAgents (evs : List Event) : List String :=
  evs.filterMap agentOf

/-- The lifecycle steps a sequence applies to the node named `n`, in order. -/
def nodeTrace (evs : List Event) (n : String) : List Tag :=
  evs.filterMap (tagOf n)

/-- Whether a per-node lifecycle trace is one the spec's monotonic node
state machine can produce: nothing yet, a start, or a start followed by
exactly one terminal step. -/
def allowedTrace : List Tag → Bool
  | [] => true
  | [Tag.start _] => true
  | [Tag.start _, Tag.complete _] => true
  | [Tag.start _, Tag.error _] => true
  | _ => false

/-- Whether an event is a session_start event. -/
def isSessionStart : Event → Bool
  | .session_start _ => true
  | _ => false

/-- Modelled from the spec: well-formedness of the tail of an ordered event
sequence after its session_start, as the backend orchestrator (outside the
frontend sources) guarantees it — no second session_start, every addressed
agent is a node of the flow, and each node's lifecycle trace is one the
monotonic state machine can produce (at most one start, followed by at most
one terminal event). -/
def wellFormedTail (nodes : List String) (rest : List Event) : Prop :=
  (∀ e ∈ rest, isSessionStart e = false) ∧
  (∀ a ∈ eventAgents rest, a ∈ nodes) ∧
  (∀ a ∈ eventAgents rest, allowedTrace (nodeTrace rest a) = true)

/-- The node the consumer's rebuild is expected to store for `n` after a
given lifecycle trace: pending right after session_start for nodes of the
flow, active with its start time after a start, completed or failed with
the recorded times after the terminal step. -/
def expectedNode (nodes : List String) (n : String) : List Tag → Option FlowNode
  | [] => if n ∈ nodes then some ⟨some n, .pending, none, none⟩ else none
  | [Tag.start t] =>
      some ⟨if n ∈ nodes then some n else none, .active, some t, none⟩
  | [Tag.start t, Tag.complete t2] =>
      some ⟨if n ∈ nodes then some n else none, .completed, some t, some t2⟩
  | [Tag.start t, Tag.error _] =>
      some ⟨if n ∈ nodes then some n else none, .failed, some t, none⟩
  | _ => none

theorem agentOf_eq_of_tagOf (e : Event) (n : String) (tag : Tag)
    (h : tagOf n e = some tag) : agentOf e = some n := by
  cases e with
  | agent_start a t =>
    by_cases ha : a = n
    · simp [agentOf, ha]
    · simp [tagOf, ha] at h
  | agent_complete a t =>
    by_cases ha : a = n
    · simp [agentOf, ha]
    · simp [tagOf, ha] at h
  | agent_error a msg =>
    by_cases ha : a = n
    · simp [agentOf, ha]
    · simp [tagOf, ha] at h
  | session_start ns => simp [tagOf] at h
  | passive => simp [tagOf] at h

theorem nodeTrace_nil_of_not_agent (evs : List Event) (n : String)
    (h : n ∉ eventAgents evs) : nodeTrace evs n = [] := by
  rw [nodeTrace, List.filterMap_eq_nil_iff]
  intro e he
  cases htag : tagOf n e with
  | none => rfl
  | some tag =>
    exact absurd
      (List.mem_filterMap.mpr ⟨e, he, agentOf_eq_of_tagOf e n tag htag⟩) h

theorem nodeTrace_append (l l' : List Event) (n : String) :
    nodeTrace (l ++ l') n = nodeTrace l n ++ nodeTrace l' n := by
  simp [nodeTrace, List.filterMap_append]

theorem nodeTrace_single (e : Event) (n : String) :
    nodeTrace [e] n = (tagOf n e).toList := by
  cases h : tagOf n e <;> simp [nodeTrace, List.filterMap_cons, h]

theorem allowed_snoc_start (xs : List Tag) (t : String)
    (h : allowedTrace (xs ++ [Tag.start t]) = true) : xs = [] := by
  match xs with
  | [] => rfl
  | [t1] => cases t1 <;> simp [allowedTrace] at h
  | [t1, t2] => cases t1 <;> cases t2 <;> simp [allowedTrace] at h
  | t1 :: t2 :: t3 :: r => cases t1 <;> simp [allowedTrace] at h

theorem allowed_snoc_complete (xs : List Tag) (t : String)
    (h : allowedTrace (xs ++ [Tag.complete t]) = true) :
    ∃ t1, xs = [Tag.start t1] := by
  match xs with
  | [] => simp [allowedTrace] at h
  | [t1] =>
    cases t1 with
    | start t1' => exact ⟨t1', rfl⟩
    | complete _ => simp [allowedTrace] at h
    | error _ => simp [allowedTrace] at h
  | [t1, t2] => cases t1 <;> cases t2 <;> simp [allowedTrace] at h
  | t1 :: t2 :: t3 :: r => cases t1 <;> simp [allowedTrace] at h

theorem allowed_snoc_error (xs : List Tag) (msg : String)
    (h : allowedTrace (xs ++ [Tag.error msg]) = true) :
    ∃ t1, xs = [Tag.start t1] := by
  match xs with
  | [] => simp [allowedTrace] at h
  | [t1] =>
    cases t1 with
    | start t1' => exact ⟨t1', rfl⟩
    | complete _ => simp [allowedTrace] at h
    | error _ => simp [allowedTrace] at h
  | [t1, t2] => cases t1 <;> cases t2 <;> simp [allowedTrace] at h
  | t1 :: t2 :: t3 :: r => cases t1 <;> simp [allowedTrace] at h

theorem allowed_snoc (xs : List Tag) (t : Tag)
    (h : allowedTrace (xs ++ [t]) = true) : allowedTrace xs = true := by
  cases t with
  | start t' => rw [allowed_snoc_start xs t' h]; rfl
  | complete t' =>
    obtain ⟨t1, rfl⟩ := allowed_snoc_complete xs t' h
    rfl
  | error msg =>
    obtain ⟨t1, rfl⟩ := allowed_snoc_error xs msg h
    rfl

theorem allowed_append_left (xs ys : List Tag)
    (h : allowedTrace (xs ++ ys) = true) : allowedTrace xs = true := by
  induction ys using List.reverseRecOn generalizing xs with
  | nil => simpa using h
  | append_singleton ys' t ih =>
    rw [← List.append_assoc] at h
    exact ih _ (allowed_snoc _ _ h)

theorem rebuild_char (nodes : List String) :
    ∀ pfx : List Event,
      (∀ e ∈ pfx, isSessionStart e = false) →
      (∀ m, allowedTrace (nodeTrace pfx m) = true) →
      ∀ n, lookupNode (pfx.foldl applyEvent (initNodes nodes)) n
        = expectedNode nodes n (nodeTrace pfx n) := by
  intro pfx
  induction pfx using List.reverseRecOn with
  | nil =>
    intro _ _ n
    simp [nodeTrace, expectedNode, lookup_initNodes]
  | append_singleton l e ih =>
    intro hss hall n
    have hssl : ∀ e' ∈ l, isSessionStart e' = false := fun e' he' =>
      hss e' (List.mem_append_left _ he')
    have halll : ∀ m, allowedTrace (nodeTrace l m) = true := by
      intro m
      have hm := hall m
      rw [nodeTrace_append, nodeTrace_single] at hm
      exact allowed_append_left _ _ hm
    have hfold : (l ++ [e]).foldl applyEvent (initNodes nodes)
        = applyEvent (l.foldl applyEvent (initNodes nodes)) e := by
      simp [List.foldl_append]
    rw [hfold, nodeTrace_append, nodeTrace_single]
    cases e with
    | session_start ns =>
      have := hss (Event.session_start ns)
        (List.mem_append_right _ (List.mem_singleton_self _))
      simp [isSessionStart] at this
    | passive =>
      simpa [applyEvent, tagOf] using ih hssl halll n
    | agent_start a t =>
      by_cases han : a = n
      · subst han
        have htag : tagOf a (Event.agent_start a t) = some (Tag.start t) := by
          simp [tagOf]
        have hnil : nodeTrace l a = [] := by
          have hm := hall a
          rw [nodeTrace_append, nodeTrace_single, htag] at hm
          exact allowed_snoc_start _ _ hm
        have hlook := ih hssl halll a
        rw [hnil] at hlook
        rw [htag, hnil]
        by_cases hmem : a ∈ nodes
        · simp only [expectedNode, if_pos hmem] at hlook
          simp [applyEvent, hlook, lookup_setNode_self, expectedNode, hmem]
        · simp only [expectedNode, if_neg hmem] at hlook
          simp [applyEvent, hlook, lookup_setNode_self, expectedNode, hmem]
      · have htag : tagOf n (Event.agent_start a t) = none := by
          simp [tagOf, han]
        have hne : n ≠ a := fun hh => han hh.symm
        rw [htag]
        cases hl : lookupNode (l.foldl applyEvent (initNodes nodes)) a with
        | some prev =>
          simpa [applyEvent, hl, lookup_setNode_ne _ _ _ _ hne]
            using ih hssl halll n
        | none =>
          simpa [applyEvent, hl, lookup_setNode_ne _ _ _ _ hne]
            using ih hssl halll n
    | agent_complete a t =>
      by_cases han : a = n
      · subst han
        have htag : tagOf a (Event.agent_complete a t) = some (Tag.complete t) := by
          simp [tagOf]
        obtain ⟨t1, hnil⟩ : ∃ t1, nodeTrace l a = [Tag.start t1] := by
          have hm := hall a
          rw [nodeTrace_append, nodeTrace_single, htag] at hm
          exact allowed_snoc_complete _ _ hm
        have hlook := ih hssl halll a
        rw [hnil] at hlook
        simp only [expectedNode] at hlook
        rw [htag, hnil]
        simp [applyEvent, hlook, lookup_setNode_self, expectedNode]
      · have htag : tagOf n (Event.agent_complete a t) = none := by
          simp [tagOf, han]
        have hne : n ≠ a := fun hh => han hh.symm
        rw [htag]
        cases hl : lookupNode (l.foldl applyEvent (initNodes nodes)) a with
        | some prev =>
          simpa [applyEvent, hl, lookup_setNode_ne _ _ _ _ hne]
            using ih hssl halll n
        | none =>
          simpa [applyEvent, hl, lookup_setNode_ne _ _ _ _ hne]
            using ih hssl halll n
    | agent_error a msg =>
      by_cases han : a = n
      · subst han
        have htag : tagOf a (Event.agent_error a msg) = some (Tag.error msg) := by
          simp [tagOf]
        obtain ⟨t1, hnil⟩ : ∃ t1, nodeTrace l a = [Tag.start t1] := by
          have hm := hall a
          rw [nodeTrace_append, nodeTrace_single, htag] at hm
          exact allowed_snoc_error _ _ hm
        have hlook := ih hssl halll a
        rw [hnil] at hlook
        simp only [expectedNode] at hlook
        rw [htag, hnil]
        simp [applyEvent, hlook, lookup_setNode_self, expectedNode]
      · have htag : tagOf n (Event.agent_error a msg) = none := by
          simp [tagOf, han]
        have hne : n ≠ a := fun hh => han hh.symm
        rw [htag]
        cases hl : lookupNode (l.foldl applyEvent (initNodes nodes)) a with
        | some prev =>
          simpa [applyEvent, hl, lookup_setNode_ne _ _ _ _ hne]
            using ih hssl halll n
        | none =>
          simpa [applyEvent, hl, lookup_setNode_ne _ _ _ _ hne]
            using ih hssl halll n

theorem rebuild_session_cons (nodes : List String) (pfx : List Event) :
    rebuild (Event.session_start nodes :: pfx)
      = pfx.foldl applyEvent (initNodes nodes) := rfl

/-- Status of a node in the map the consumer has rebuilt from the
session_start event followed by the first `i` events of the tail. -/
def statusAfter (nodes : List String) (rest : List Event) (i : Nat)
    (n : String) : Option NodeStatus :=
  (lookupNode (rebuild (Event.session_start nodes :: rest.take i)) n).map
    FlowNode.status

/-- started_at of a node in the rebuilt map after `i` tail events. -/
def startedAfter (nodes : List String) (rest : List Event) (i : Nat)
    (n : String) : Option String :=
  (lookupNode (rebuild (Event.session_start nodes :: rest.take i)) n).bind
    FlowNode.started_at

/-- ended_at of a node in the rebuilt map after `i` tail events. -/
def endedAfter (nodes : List String) (rest : List Event) (i : Nat)
    (n : String) : Option String :=
  (lookupNode (rebuild (Event.session_start nodes :: rest.take i)) n).bind
    FlowNode.ended_at

/-- The transitions the spec allows on a node's observed status: staying
put, pending to active, or active to exactly one of the terminal statuses.
In particular a terminal status can never change again and a node is never
revisited. -/
def legalStep (a b : Option NodeStatus) : Prop :=
  a = b ∨
  (a = some NodeStatus.pending ∧ b = some NodeStatus.active) ∨
  (a = some NodeStatus.active ∧
    (b = some NodeStatus.completed ∨ b = some NodeStatus.failed))

/-- The monotone-lifecycle property of the consumer's rebuilt node map over
an ordered event sequence made of a session_start followed by `rest`:
every flow node starts out pending; every later step of the rebuild moves
each node's status only along pending→active→(completed|failed); an
agent_start event leaves its node active with the event's started_at; an
agent_complete event leaves it completed with the event's ended_at; an
agent_error event leaves it failed. -/
def MonotoneRebuild (nodes : List String) (rest : List Event) : Prop :=
  (∀ n ∈ nodes, statusAfter nodes rest 0 n = some NodeStatus.pending) ∧
  (∀ i n, legalStep (statusAfter nodes rest i n)
      (statusAfter nodes rest (i + 1) n)) ∧
  (∀ i a t, rest[i]? = some (Event.agent_start a t) →
    statusAfter nodes rest (i + 1) a = some NodeStatus.active ∧
    startedAfter nodes rest (i + 1) a = some t) ∧
  (∀ i a t, rest[i]? = some (Event.agent_complete a t) →
    statusAfter nodes rest (i + 1) a = some NodeStatus.completed ∧
    endedAfter nodes rest (i + 1) a = some t) ∧
  (∀ i a msg, rest[i]? = some (Event.agent_error a msg) →
    statusAfter nodes rest (i + 1) a = some NodeStatus.failed)

/-- C1: over every ordered event sequence that begins with session_start
and whose tail respects the orchestrator's per-node event ordering, the
consumer's rebuilt node map gives each flow node a monotonic status
history — pending at session_start, active (with started_at) on its
agent_start, and exactly one terminal status, completed (with ended_at) on
agent_complete or failed on agent_error, with no other transition and no
node revisited. -/
theorem consumer_rebuild_monotonic (nodes : List String) (rest : List Event)
    (hwf : wellFormedTail nodes rest) : MonotoneRebuild nodes rest := by
  obtain ⟨hss, hmemagents, hallow0⟩ := hwf
  have hall : ∀ n, allowedTrace (nodeTrace rest n) = true := by
    intro n
    by_cases hn : n ∈ eventAgents rest
    · exact hallow0 n hn
    · rw [nodeTrace_nil_of_not_agent rest n hn]; rfl
  have hss_take : ∀ j, ∀ e ∈ rest.take j, isSessionStart e = false :=
    fun j e he => hss e (List.take_subset j rest he)
  have hall_take : ∀ j n, allowedTrace (nodeTrace (rest.take j) n) = true := by
    intro j n
    have hsplit := hall n
    conv at hsplit => rw [← List.take_append_drop j rest]
    rw [nodeTrace_append] at hsplit
    exact allowed_append_left _ _ hsplit
  have hchar : ∀ j n,
      lookupNode (rebuild (Event.session_start nodes :: rest.take j)) n
        = expectedNode nodes n (nodeTrace (rest.take j) n) := by
    intro j n
    rw [rebuild_session_cons]
    exact rebuild_char nodes (rest.take j) (hss_take j) (hall_take j) n
  refine ⟨?_, ?_, ?_, ?_, ?_⟩
  · intro n hn
    simp [statusAfter, rebuild_session_cons, lookup_initNodes, hn]
  · intro i n
    cases hget : rest[i]? with
    | none =>
      have heq : rest.take (i + 1) = rest.take i := by
        rw [List.take_succ, hget]; simp
      left
      rw [statusAfter, statusAfter, heq]
    | some e =>
      have hsucc : rest.take (i + 1) = rest.take i ++ [e] := by
        rw [List.take_succ, hget]; rfl
      have h1 : statusAfter nodes rest i n
          = (expectedNode nodes n (nodeTrace (rest.take i) n)).map
              FlowNode.status := by
        rw [statusAfter, hchar]
      have h2 : statusAfter nodes rest (i + 1) n
          = (expectedNode nodes n
              (nodeTrace (rest.take i) n ++ (tagOf n e).toList)).map
              FlowNode.status := by
        rw [statusAfter, hchar, hsucc, nodeTrace_append, nodeTrace_single]
      cases htag : tagOf n e with
      | none =>
        left
        rw [h1, h2, htag]
        simp
      | some tag =>
        have hmem : n ∈ nodes :=
          hmemagents n (List.mem_filterMap.mpr
            ⟨e, List.getElem?_mem hget, agentOf_eq_of_tagOf e n tag htag⟩)
        have hallowed : allowedTrace (nodeTrace (rest.take i) n ++ [tag]) = true := by
          have h := hall_take (i + 1) n
          rw [hsucc, nodeTrace_append, nodeTrace_single, htag] at h
          simpa using h
        cases tag with
        | start t =>
          have hnil := allowed_snoc_start _ _ hallowed
          right; left
          rw [h1, h2, htag, hnil]
          exact ⟨by simp [expectedNode, hmem], by simp [expectedNode]⟩
        | complete t =>
          obtain ⟨t1, hstart⟩ := allowed_snoc_complete _ _ hallowed
          right; right
          rw [h1, h2, htag, hstart]
          exact ⟨by simp [expectedNode], Or.inl (by simp [expectedNode])⟩
        | error msg =>
          obtain ⟨t1, hstart⟩ := allowed_snoc_error _ _ hallowed
          right; right
          rw [h1, h2, htag, hstart]
          exact ⟨by simp [expectedNode], Or.inr (by simp [expectedNode])⟩
  · intro i a t hget
    have hsucc : rest.take (i + 1) = rest.take i ++ [Event.agent_start a t] := by
      rw [List.take_succ, hget]; rfl
    have htag : tagOf a (Event.agent_start a t) = some (Tag.start t) := by
      simp [tagOf]
    have hallowed : allowedTrace
        (nodeTrace (rest.take i) a ++ [Tag.start t]) = true := by
      have h := hall_take (i + 1) a
      rw [hsucc, nodeTrace_append, nodeTrace_single, htag] at h
      simpa using h
    have hnil := allowed_snoc_start _ _ hallowed
    constructor
    · rw [statusAfter, hchar, hsucc, nodeTrace_append, nodeTrace_single,
        htag, hnil]
      simp [expectedNode]
    · rw [startedAfter, hchar, hsucc, nodeTrace_append, nodeTrace_single,
        htag, hnil]
      simp [expectedNode]
  · intro i a t hget
    have hsucc : rest.take (i + 1) = rest.take i ++ [Event.agent_complete a t] := by
      rw [List.take_succ, hget]; rfl
    have htag : tagOf a (Event.agent_complete a t) = some (Tag.complete t) := by
      simp [tagOf]
    have hallowed : allowedTrace
        (nodeTrace (rest.take i) a ++ [Tag.complete t]) = true := by
      have h := hall_take (i + 1) a
      rw [hsucc, nodeTrace_append, nodeTrace_single, htag] at h
      simpa using h
    obtain ⟨t1, hstart⟩ := allowed_snoc_complete _ _ hallowed
    constructor
    · rw [statusAfter, hchar, hsucc, nodeTrace_append, nodeTrace_single,
        htag, hstart]
      simp [expectedNode]
    · rw [endedAfter, hchar, hsucc, nodeTrace_append, nodeTrace_single,
        htag, hstart]
      simp [expectedNode]
  · intro i a msg hget
    have hsucc : rest.take (i + 1) = rest.take i ++ [Event.agent_error a msg] := by
      rw [List.take_succ, hget]; rfl
    have htag : tagOf a (Event.agent_error a msg) = some (Tag.error msg) := by
      simp [tagOf]
    have hallowed : allowedTrace
        (nodeTrace (rest.take i) a ++ [Tag.error msg]) = true := by
      have h := hall_take (i + 1) a
      rw [hsucc, nodeTrace_append, nodeTrace_single, htag] at h
      simpa using h
    obtain ⟨t1, hstart⟩ := allowed_snoc_error _ _ hallowed
    rw [statusAfter, hchar, hsucc, nodeTrace_append, nodeTrace_single,
      htag, hstart]
    simp [expectedNode]

/-- Witness for C1: the monotone-lifecycle property holds for a concrete
well-formed sequence over the two-node flow, with one completed node, a
passive event and one failed node. -/
theorem consumer_rebuild_monotonic_witness :
    MonotoneRebuild ["CEO", "Evaluator"]
      [Event.agent_start "CEO" "t1", Event.agent_complete "CEO" "t2",
       Event.passive, Event.agent_start "Evaluator" "t3",
       Event.agent_error "Evaluator" "timeout"] :=
  consumer_rebuild_monotonic ["CEO", "Evaluator"]
    [Event.agent_start "CEO" "t1", Event.agent_complete "CEO" "t2",
     Event.passive, Event.agent_start "Evaluator" "t3",
     Event.agent_error "Evaluator" "timeout"]
    (by refine ⟨by decide, by decide, by decide⟩)
